import Mathlib

/-!
Shallow embedding of the h3 Go HTTP framework: servlet lifecycle
orchestration (server.go), middleware composition and sub-router
mounting (mux.go), and the capturing response wrapper (response.go),
together with theorems checking the specification claims against these
definitions.
-/

namespace H3

/-- Behavior of one servlet: the value its Start returns (none means
success) and the value its Stop returns (none means success). Embeds
the Servlet interface of servlet.go. -/
structure ServletBeh where
  startErr : Option String
  stopErr : Option String
deriving DecidableEq

/-- Zero value used with List.getD; indices are always in range when it
is used below. -/
def defaultServlet : ServletBeh := ⟨none, none⟩

/-- Observable lifecycle events on the servlet list: a Start call or a
Stop call on the servlet at a given registration index. -/
inductive Ev
  | start (i : Nat)
  | stop (i : Nat)
deriving DecidableEq

/-- Embeds the descending stop loop of server.go. The same loop shape
occurs twice in the source: the rollback loop inside Server.Start
(server.go lines 248 to 253, for j from i-1 down to 0) and the shutdown
loop of the background task (server.go lines 284 to 289, for i from
len-1 down to 0). Given a bound j it stops the servlets at indices j-1
down to 0, in that order, and collects the logged stop errors in log
order. -/
def stopDownFrom (servs : List ServletBeh) : Nat → List Ev × List String
  | 0 => ([], [])
  | j + 1 =>
    (Ev.stop j :: (stopDownFrom servs j).1,
     match (servs.getD j defaultServlet).stopErr with
     | some e => e :: (stopDownFrom servs j).2
     | none => (stopDownFrom servs j).2)

/-- Embeds the forward start loop of Server.Start (server.go lines 244
to 256): servlets are started in registration order; on the first
failure the already started prefix is stopped in reverse order via the
rollback loop, the stop errors are logged, and the original start error
is returned. The first argument is the full servlet list (the Go
rollback indexes into s.servs), the second the remaining suffix, the
third the index of its head. Returns (events, logs, returned error). -/
def startLoopAux (all : List ServletBeh) :
    List ServletBeh → Nat → List Ev × List String × Option String
  | [], _ => ([], [], none)
  | sb :: rest, i =>
    match sb.startErr with
    | some e =>
      (Ev.start i :: (stopDownFrom all i).1, (stopDownFrom all i).2, some e)
    | none =>
      (Ev.start i :: (startLoopAux all rest (i + 1)).1,
       (startLoopAux all rest (i + 1)).2.1,
       (startLoopAux all rest (i + 1)).2.2)

/-- The servlet phase of Server.Start applied to the registered list. -/
def startServlets (servs : List ServletBeh) : List Ev × List String × Option String :=
  startLoopAux servs servs 0

/-- Error value produced by address parsing, mirroring net.AddrError
(an error kind together with the offending address). -/
structure AddrError where
  err : String
  addr : String
deriving DecidableEq

def missingPortMsg : String := "missing port in address"

def tooManyColonsMsg : String := "too many colons in address"

def missingBracketMsg : String := "missing bracket in address"

def unexpectedOpenMsg : String := "unexpected open bracket in address"

def unexpectedCloseMsg : String := "unexpected close bracket in address"

/-- Index of the first occurrence of a character, starting at offset i. -/
def firstIdxAux (c : Char) : List Char → Nat → Option Nat
  | [], _ => none
  | x :: xs, i => if x = c then some i else firstIdxAux c xs (i + 1)

/-- Index of the first occurrence of a character in a character list. -/
def firstIdx (s : List Char) (c : Char) : Option Nat := firstIdxAux c s 0

/-- Index of the last occurrence of a character in a character list. -/
def lastIdx (s : List Char) (c : Char) : Option Nat :=
  match firstIdx s.reverse c with
  | none => none
  | some r => some (s.length - 1 - r)

/-- Embeds net.SplitHostPort, the stdlib function Server.Start uses at
server.go line 240 to validate Options.Addr. The port starts after the
last colon; a leading open bracket starts a bracketed host; stray
brackets or extra colons are rejected. Error kind strings paraphrase
the stdlib messages. -/
def splitHostPort (hostport : String) : Except AddrError (String × String) :=
  let s := hostport.toList
  match lastIdx s ':' with
  | none => Except.error ⟨missingPortMsg, hostport⟩
  | some i =>
    let hres : Except AddrError (List Char × Nat × Nat) :=
      if s.headD ' ' = '[' then
        match firstIdx s ']' with
        | none => Except.error ⟨missingBracketMsg, hostport⟩
        | some e =>
          if e + 1 = s.length then Except.error ⟨missingPortMsg, hostport⟩
          else if e + 1 = i then Except.ok ((s.drop 1).take (e - 1), 1, e + 1)
          else if s.getD (e + 1) ' ' = ':' then
            Except.error ⟨tooManyColonsMsg, hostport⟩
          else Except.error ⟨missingPortMsg, hostport⟩
      else
        if (firstIdx (s.take i) ':').isSome then
          Except.error ⟨tooManyColonsMsg, hostport⟩
        else Except.ok (s.take i, 0, 0)
    match hres with
    | Except.error err => Except.error err
    | Except.ok (host, j, k) =>
      if (firstIdx (s.drop j) '[').isSome then
        Except.error ⟨unexpectedOpenMsg, hostport⟩
      else if (firstIdx (s.drop k) ']').isSome then
        Except.error ⟨unexpectedCloseMsg, hostport⟩
      else Except.ok (String.mk host, String.mk (s.drop (i + 1)))

/-- Error returned by Server.Start: either the address parse error or a
servlet start error. -/
inductive StartErr
  | addr (e : AddrError)
  | servlet (e : String)
deriving DecidableEq

/-- Outcome of a Server.Start call: the lifecycle events observed on
the servlets, the logged messages, the returned error (none on
success), and whether the server reached the point where the listener
and the background coordination task are created (server.go lines 258
to 302, reached only when address parsing and every servlet start
succeed). -/
structure StartResult where
  events : List Ev
  logs : List String
  result : Option StartErr
  listening : Bool
deriving DecidableEq

/-- Embeds Server.Start (server.go lines 236 to 303): validate the
address, start the servlets with rollback on failure, and only on full
success create the listener and the background coordination task. -/
def serverStart (addr : String) (servs : List ServletBeh) : StartResult :=
  match splitHostPort addr with
  | Except.error e => ⟨[], [], some (StartErr.addr e), false⟩
  | Except.ok _ =>
    let r := startServlets servs
    match r.2.2 with
    | some e => ⟨r.1, r.2.1, some (StartErr.servlet e), false⟩
    | none => ⟨r.1, r.2.1, none, true⟩

/-- Embeds the background coordination task body (server.go lines 279
to 293) together with the value Server.Stop returns (server.go lines
317 to 321): after receiving the handoff the task stops every
registered servlet in reverse registration order, logging stop errors,
and then sends the transport engine drain result back, which is the
value Stop returns. The drain result is passed in as a parameter
because the transport engine is an external collaborator. -/
def serverStopTask (servs : List ServletBeh) (drainResult : Option String) :
    List Ev × List String × Option String :=
  ((stopDownFrom servs servs.length).1, (stopDownFrom servs servs.length).2,
   drainResult)

/-- Contexts reduced to the one observable the claims are about: an
optional deadline. -/
structure Ctx where
  deadline : Option Nat
deriving DecidableEq

/-- context.Background carries no deadline. -/
def backgroundCtx : Ctx := ⟨none⟩

/-- lctx at server.go line 258 is context.WithCancel of Background;
WithCancel adds no deadline, and the deferred cancel runs only after
the goroutine body, hence after the Shutdown call, returns. -/
def lctx : Ctx := backgroundCtx

/-- The context the background task passes to server.Shutdown at
server.go line 292. It is lctx; the ctx argument of Server.Stop is
never consulted (server.go lines 317 to 321). -/
def shutdownCtxUsed (stopCtx : Ctx) : Ctx := lctx

/-- State of the one-shot shutdown handoff channel s.exit: how many
receive operations the coordination task side will still perform. The
goroutine created by Server.Start (server.go line 279) executes exactly
one receive from s.exit and then terminates, so a single Start
contributes one pending receiver. -/
structure ExitChan where
  pendingReceivers : Nat
deriving DecidableEq

/-- Number of receives from s.exit performed by the goroutine body at
server.go lines 279 to 293 over its whole lifetime. -/
def exitReceivesPerStart : Nat := 1

/-- Channel state right after a successful Server.Start. -/
def afterStart : ExitChan := ⟨exitReceivesPerStart⟩

/-- Outcome of the unbuffered send in Server.Stop (server.go line
319). -/
inductive StopOutcome
  | completed
  | blocked
deriving DecidableEq

/-- Rendezvous semantics of the unbuffered send on s.exit performed by
Server.Stop: the send completes only by pairing with a pending receive
of the coordination task, consuming it; with no pending receiver the
sender blocks forever. -/
def sendOnExit (c : ExitChan) : StopOutcome × ExitChan :=
  if c.pendingReceivers = 0 then (StopOutcome.blocked, c)
  else (StopOutcome.completed, ⟨c.pendingReceivers - 1⟩)

/-- Effects of running a handler are modeled as a transformation of an
event log; a ServeHTTP call is application to the log. -/
abbrev Trace := List String

/-- http.Handler, with its effects modeled on the trace. -/
abbrev Handler := Trace → Trace

/-- Middleware signature func(http.Handler) http.Handler. -/
abbrev Middleware := Handler → Handler

/-- The mux struct of mux.go reduced to its middleware chain field pre
(nil modeled as none); the underlying ServeMux is an external
collaborator. -/
structure GoMux where
  pre : Option Middleware

/-- Embeds mux.Use (mux.go): the old chain is captured, and the new
chain wraps the new middleware inside the old chain through an
http.HandlerFunc closure (here the literal eta expansion), or becomes
the middleware itself when the chain was empty. -/
def GoMux.use (m : GoMux) (middleware : Middleware) : GoMux :=
  let pre := m.pre
  { pre := some (fun next =>
      match pre with
      | some p => p (fun t => middleware next t)
      | none => middleware next) }

/-- The handler a request is served with, following mux.ServeHTTP: the
chain applied to the underlying handler when present, the underlying
handler itself otherwise. -/
def GoMux.composed (m : GoMux) (h : Handler) : Handler :=
  match m.pre with
  | some p => p h
  | none => h

/-- NewMux: no middleware registered. -/
def newGoMux : GoMux := { pre := none }

/-- A sequence of Use calls in list order. -/
def useList (m : GoMux) (ms : List Middleware) : GoMux :=
  ms.foldl GoMux.use m

/-- The nesting m1 (m2 (... mk h)) the composition law compares
against. -/
def nest (ms : List Middleware) (h : Handler) : Handler :=
  ms.foldr (fun mw acc => mw acc) h

def preMsg : String := "pre "

def postMsg : String := "post "

def hMsg : String := "H"

/-- A middleware with observable pre and post logic: it logs its pre
event, runs the inner handler, then logs its post event. -/
def traceMW (i : Nat) : Middleware :=
  fun next t => (next (t ++ [preMsg ++ toString i])) ++ [postMsg ++ toString i]

/-- A terminal handler that logs one event. -/
def traceH : Handler := fun t => t ++ [hMsg]

/-- Expected pre events of traceMW 0 .. traceMW (k-1) in order. -/
def preList (k : Nat) : Trace :=
  (List.range k).map (fun i => preMsg ++ toString i)

/-- Expected post events of traceMW (k-1) .. traceMW 0 in order. -/
def postList (k : Nat) : Trace :=
  ((List.range k).reverse).map (fun i => postMsg ++ toString i)

/-- The trailing wildcard suffix Mount appends (mux.go): the pattern
text between the braces captures all remaining path segments. -/
def wildcardSuffix : String := "/\x7bpath...\x7d"

/-- The normalization step of mux.Mount: strip one trailing separator
when the pattern is nonempty and ends in one. -/
def normMount (pat : String) : String :=
  if pat.length > 0 && pat.back == '/' then pat.dropRight 1 else pat

/-- The handler registered by Mount: the sub-router directly, or the
sub-router behind an http.StripPrefix wrapper for a given prefix. -/
inductive MountHandler
  | direct
  | stripped (pre : String)
deriving DecidableEq

/-- Observable outcome of a mux.Mount call: a panic on the invalid
empty pattern, or a registration of a pattern with a handler. -/
inductive MountAction
  | panicInvalid
  | registered (pat : String) (h : MountHandler)
deriving DecidableEq

def rootPat : String := "/"

def emptyPat : String := ""

/-- Embeds mux.Mount (mux.go lines 132 to 153): the empty pattern
panics, the root pattern registers the sub-router directly, any other
pattern is normalized and registered under the wildcard pattern with a
StripPrefix handler for the normalized prefix. -/
def goMount (pat : String) : MountAction :=
  if pat = emptyPat then MountAction.panicInvalid
  else if pat = rootPat then MountAction.registered rootPat MountHandler.direct
  else
    let p := normMount pat
    MountAction.registered (p ++ wildcardSuffix) (MountHandler.stripped p)

/-- Request paths as character lists; a path handler returns none when
it serves a 404. -/
abbrev ReqPath := List Char

/-- Embeds http.StripPrefix as used by Mount: trim the prefix from the
request path when present; when nothing was trimmed answer 404,
otherwise forward the shortened path to the wrapped handler. -/
def stripPrefixFn (pre : ReqPath) (h : ReqPath → Option String) :
    ReqPath → Option String :=
  fun path =>
    let p := if pre.isPrefixOf path then path.drop pre.length else path
    if p.length < path.length then h p else none

/-- The state of the response wrapper (response.go): captured status,
accumulated body size, commit flag. -/
structure RespSt where
  status : Nat
  size : Nat
  committed : Bool
deriving DecidableEq

/-- NewResponse on a plain sink: default status 200, size 0, not
committed. -/
def newResponse : RespSt := ⟨200, 0, false⟩

def headerAfterCommitMsg : String := "attempt to write header after response committed"

/-- Events the wrapper forwards to the underlying sink: a header write
with a status code, or a body write whose argument is the byte count
the sink reports back. -/
inductive SinkEv
  | header (code : Nat)
  | body (reported : Nat)
deriving DecidableEq

/-- Embeds response.WriteHeader: on a committed response the call only
logs and changes nothing; otherwise it records the status, marks the
response committed and forwards the header write to the sink. Returns
(new state, sink events, logs). -/
def respWriteHeader (r : RespSt) (code : Nat) : RespSt × List SinkEv × List String :=
  if r.committed then (r, [], [headerAfterCommitMsg])
  else ({ r with status := code, committed := true }, [SinkEv.header code], [])

/-- Embeds response.Write: an uncommitted response first defaults a
zero status to 200 and performs WriteHeader with the recorded status;
then the body write is forwarded and size grows by exactly the byte
count the sink reports (the reported argument). -/
def respWrite (r : RespSt) (reported : Nat) : RespSt × List SinkEv × List String :=
  let w :=
    if r.committed then (r, ([] : List SinkEv), ([] : List String))
    else
      let r0 := if r.status = 0 then { r with status := 200 } else r
      respWriteHeader r0 r0.status
  ({ w.1 with size := w.1.size + reported }, w.2.1 ++ [SinkEv.body reported], w.2.2)

/-- A sequence of Write calls with the byte counts the sink reports. -/
def respWrites (r : RespSt) : List Nat → RespSt × List SinkEv × List String
  | [] => (r, [], [])
  | b :: bs =>
    ((respWrites (respWrite r b).1 bs).1,
     (respWrite r b).2.1 ++ (respWrites (respWrite r b).1 bs).2.1,
     (respWrite r b).2.2 ++ (respWrites (respWrite r b).1 bs).2.2)

/-- A sequence of WriteHeader calls with the given codes. -/
def respWriteHeaderSeq (r : RespSt) : List Nat → RespSt × List SinkEv × List String
  | [] => (r, [], [])
  | c :: cs =>
    ((respWriteHeaderSeq (respWriteHeader r c).1 cs).1,
     (respWriteHeader r c).2.1 ++ (respWriteHeaderSeq (respWriteHeader r c).1 cs).2.1,
     (respWriteHeader r c).2.2 ++ (respWriteHeaderSeq (respWriteHeader r c).1 cs).2.2)

/-- Optional capabilities of the underlying sink: incremental flush,
connection takeover, server push. -/
structure SinkCaps where
  canFlush : Bool
  canHijack : Bool
  canPush : Bool
deriving DecidableEq

/-- Outcome of response.Flush: a normal return or a panic aborting the
handling goroutine. -/
inductive FlushOutcome
  | flushed
  | panicked (msg : String)
deriving DecidableEq

/-- The http.ErrNotSupported message returned by ResponseController
when the sink lacks a capability. -/
def errNotSupportedMsg : String := "feature not supported"

def flushPanicMsg : String := "h3: response writer does not support flushing"

def pushErrMsg : String := "h3: response writer does not support pushing"

/-- ResponseController.Flush on the sink: ErrNotSupported when the sink
is not a Flusher, success otherwise. -/
def controllerFlush (c : SinkCaps) : Option String :=
  if c.canFlush then none else some errNotSupportedMsg

/-- Embeds response.Flush: a non-nil controller error that is
ErrNotSupported becomes a panic; otherwise the call returns. -/
def respFlush (c : SinkCaps) : FlushOutcome :=
  match controllerFlush c with
  | some e => if e = errNotSupportedMsg then FlushOutcome.panicked flushPanicMsg
              else FlushOutcome.flushed
  | none => FlushOutcome.flushed

/-- Embeds response.Hijack: ResponseController.Hijack returns the
ErrNotSupported error value when the sink is not a Hijacker; no
panic. -/
def respHijack (c : SinkCaps) : Except String Unit :=
  if c.canHijack then Except.ok () else Except.error errNotSupportedMsg

/-- Embeds response.Push: a type assertion to http.Pusher; on failure
an error value is returned; no panic. -/
def respPush (c : SinkCaps) : Except String Unit :=
  if c.canPush then Except.ok () else Except.error pushErrMsg

def addr8080 : String := ":8080"

def emptyStr : String := ""

def portStr : String := "8080"

def boomMsg : String := "boom"

def weepMsg : String := "weep"

def apiSlashPat : String := "/api/"

def apiPat : String := "/api"

/-- Sample sub-router handler echoing the path it receives. -/
def subEcho : ReqPath → Option String := fun p => some (String.mk p)

def slashX : ReqPath := ['/', 'x']

def slashXStr : String := "/x"

/-- Sample servlet list prefix: one servlet that starts fine and fails
on stop. -/
def wPre : List ServletBeh := [⟨none, some weepMsg⟩]

/-- Sample failing servlet. -/
def wFail : ServletBeh := ⟨some boomMsg, none⟩

/-- Sample servlet list suffix after the failing servlet. -/
def wPost : List ServletBeh := [defaultServlet]

/-- Sample reported byte counts, with a zero byte write included. -/
def wBytes : List Nat := [3, 0, 4]

/-- Sample already committed response state. -/
def wCommitted : RespSt := ⟨201, 5, true⟩

/-- Sample status codes for repeated WriteHeader calls. -/
def wCodes : List Nat := [404, 500]

/-- A sink with none of the optional capabilities. -/
def wNoCaps : SinkCaps := ⟨false, false, false⟩

lemma stopDownFrom_append (l r : List ServletBeh) (j : Nat) (hj : j ≤ l.length) :
    stopDownFrom (l ++ r) j = stopDownFrom l j := by
  induction j with
  | zero => rfl
  | succ j ih =>
    have hj1 : j < l.length := Nat.lt_of_succ_le hj
    have hgd : (l ++ r).getD j defaultServlet = l.getD j defaultServlet := by
      simp [List.getD_eq_getElem?_getD, List.getElem?_append_left hj1]
    simp only [stopDownFrom, hgd, ih (Nat.le_of_lt hj1)]

lemma stopDownFrom_full (l : List ServletBeh) :
    stopDownFrom l l.length =
      ((List.range l.length).reverse.map Ev.stop,
       l.reverse.filterMap ServletBeh.stopErr) := by
  induction l using List.reverseRecOn with
  | nil => rfl
  | append_singleton l x ih =>
    have hlen : (l ++ [x]).length = l.length + 1 := by simp
    have hgd : (l ++ [x]).getD l.length defaultServlet = x := by
      simp [List.getD_eq_getElem?_getD, List.getElem?_append_right (Nat.le_refl l.length)]
    have hstep : stopDownFrom (l ++ [x]) l.length = stopDownFrom l l.length :=
      stopDownFrom_append l [x] l.length (Nat.le_refl l.length)
    rw [hlen]
    simp only [stopDownFrom, hgd, hstep, ih]
    cases hx : x.stopErr <;>
      simp [hx, List.range_succ, List.filterMap_cons]

/-- Claim C2: the shutdown task stops every registered servlet exactly
once, in exact reverse registration order, stop errors are only logged
and never skip later stops, and the value Stop returns is the transport
engine drain result, never a servlet stop error. -/
theorem stop_reverse_best_effort (servs : List ServletBeh) (d : Option String) :
    serverStopTask servs d =
      ((List.range servs.length).reverse.map Ev.stop,
       servs.reverse.filterMap ServletBeh.stopErr, d) := by
  simp [serverStopTask, stopDownFrom_full]

/-- Claim C3 evidence: the context the background task hands to the
transport engine drain is always the background derived lctx, even when
the caller of Stop supplies a context with a deadline; the Stop context
is ignored, contradicting the documented bound on the drain. -/
theorem stop_drain_ignores_ctx :
    shutdownCtxUsed ⟨some 5⟩ = backgroundCtx ∧ (⟨some 5⟩ : Ctx) ≠ backgroundCtx :=
  ⟨rfl, by decide⟩

/-- Claim C9: the first Stop after Start completes its rendezvous with
the single receive the background task ever performs on the handoff
channel; a second Stop finds no receiver and blocks forever. -/
theorem second_stop_blocks :
    (sendOnExit afterStart).1 = StopOutcome.completed
    ∧ (sendOnExit (sendOnExit afterStart).2).1 = StopOutcome.blocked := by
  decide

/-- Claim C10: when the configured address does not parse, Server.Start
returns the parse error before doing anything else: no servlet events,
no logs, no listener and no background task. -/
theorem start_invalid_addr_early_return (addr : String) (e : AddrError)
    (servs : List ServletBeh) (h : splitHostPort addr = Except.error e) :
    serverStart addr servs = ⟨[], [], some (StartErr.addr e), false⟩ := by
  simp [serverStart, h]

/-- Witness for claim C10 at the empty address, which fails to parse
even though the Options.Addr documentation promises a default. -/
theorem start_invalid_addr_early_return_witness :
    splitHostPort emptyStr = Except.error ⟨missingPortMsg, emptyStr⟩
    ∧ serverStart emptyStr [defaultServlet] =
        ⟨[], [], some (StartErr.addr ⟨missingPortMsg, emptyStr⟩), false⟩ :=
  ⟨rfl,
   start_invalid_addr_early_return emptyStr ⟨missingPortMsg, emptyStr⟩
     [defaultServlet] rfl⟩

lemma use_composed (m : GoMux) (mw : Middleware) (h : Handler) :
    (m.use mw).composed h = m.composed (mw h) := by
  cases m with
  | mk pre => cases pre <;> rfl

lemma useList_composed (ms : List Middleware) (m : GoMux) (h : Handler) :
    (useList m ms).composed h = m.composed (nest ms h) := by
  induction ms generalizing m with
  | nil => rfl
  | cons mw rest ih =>
    show (useList (m.use mw) rest).composed h = _
    rw [ih, use_composed]
    rfl

lemma nest_traceMW (k : Nat) (w : Trace) :
    nest ((List.range k).map traceMW) (fun t => t ++ w) =
      fun t => t ++ (preList k ++ w ++ postList k) := by
  induction k generalizing w with
  | zero => funext t; simp [nest, preList, postList]
  | succ k ih =>
    have h1 : traceMW k (fun t => t ++ w) =
        fun t => t ++ ((preMsg ++ toString k) :: (w ++ [postMsg ++ toString k])) := by
      funext t
      simp [traceMW, List.append_assoc]
    calc nest ((List.range (k + 1)).map traceMW) (fun t => t ++ w)
        = nest ((List.range k).map traceMW ++ [traceMW k]) (fun t => t ++ w) := by
          simp [List.range_succ]
      _ = nest ((List.range k).map traceMW) (traceMW k (fun t => t ++ w)) := by
          simp [nest, List.foldr_append]
      _ = fun t => t ++ (preList (k + 1) ++ w ++ postList (k + 1)) := by
          rw [h1, ih]
          funext t
          simp [preList, postList, List.range_succ, List.append_assoc]

/-- Claim C4: middlewares registered with Use in order m1 .. mk compose
around any terminal handler as m1 (m2 (... mk H)) with the first
registered middleware outermost; with no middleware the composition is
the identity; a further Use wraps inside the existing chain, preserving
the relative order of earlier middlewares; and running the composition
of k observable middlewares interleaves pre events in registration
order, then the handler, then post events in reverse order. -/
theorem middleware_composition_law (ms : List Middleware) (h : Handler)
    (mw : Middleware) (k : Nat) :
    (useList newGoMux ms).composed h = nest ms h
    ∧ (useList newGoMux []).composed h = h
    ∧ (useList newGoMux (ms ++ [mw])).composed h
        = (useList newGoMux ms).composed (mw h)
    ∧ (useList newGoMux ((List.range k).map traceMW)).composed traceH []
        = preList k ++ [hMsg] ++ postList k := by
  refine ⟨useList_composed ms newGoMux h, rfl, ?_, ?_⟩
  · rw [useList_composed, useList_composed]
    show nest (ms ++ [mw]) h = nest ms (mw h)
    simp [nest, List.foldr_append]
  · rw [useList_composed]
    show nest ((List.range k).map traceMW) traceH [] = _
    have hth : traceH = fun t => t ++ [hMsg] := rfl
    rw [hth, nest_traceMW]
    simp

lemma startLoopAux_ok_prefix (all pre rest : List ServletBeh) (i : Nat)
    (hpre : ∀ x ∈ pre, x.startErr = none) :
    startLoopAux all (pre ++ rest) i =
      ((List.range' i pre.length).map Ev.start
         ++ (startLoopAux all rest (i + pre.length)).1,
       (startLoopAux all rest (i + pre.length)).2.1,
       (startLoopAux all rest (i + pre.length)).2.2) := by
  induction pre generalizing i with
  | nil => simp
  | cons x pre ih =>
    have hx : x.startErr = none := hpre x (List.mem_cons_self x pre)
    have hpre2 : ∀ y ∈ pre, y.startErr = none := fun y hy =>
      hpre y (List.mem_cons_of_mem x hy)
    show startLoopAux all (x :: (pre ++ rest)) i = _
    simp only [startLoopAux, hx, ih (i + 1) hpre2, List.range'_succ,
      List.map_cons, List.cons_append, List.length_cons, Nat.add_succ,
      Nat.succ_add]

/-- Claim C1: when the servlets before index i all start successfully
and the servlet at index i fails with error e, Server.Start returns e;
the prefix is started in registration order and then stopped exactly
once each in exact reverse order, the failing servlet is started but
never stopped, later servlets see no call at all, rollback stop errors
are only logged and never replace e, and the server never starts
listening. -/
theorem start_failure_rollback (addr : String) (hp : String × String)
    (pre post : List ServletBeh) (sb : ServletBeh) (e : String)
    (haddr : splitHostPort addr = Except.ok hp)
    (hpre : ∀ x ∈ pre, x.startErr = none)
    (hsb : sb.startErr = some e) :
    serverStart addr (pre ++ sb :: post) =
      ⟨(List.range (pre.length + 1)).map Ev.start
         ++ (List.range pre.length).reverse.map Ev.stop,
       pre.reverse.filterMap ServletBeh.stopErr,
       some (StartErr.servlet e), false⟩ := by
  have hloop := startLoopAux_ok_prefix (pre ++ sb :: post) pre (sb :: post) 0 hpre
  simp only [Nat.zero_add] at hloop
  have hstop : stopDownFrom (pre ++ sb :: post) pre.length = stopDownFrom pre pre.length :=
    stopDownFrom_append pre (sb :: post) pre.length (Nat.le_refl pre.length)
  have hfail : startLoopAux (pre ++ sb :: post) (sb :: post) pre.length =
      (Ev.start pre.length :: (stopDownFrom pre pre.length).1,
       (stopDownFrom pre pre.length).2, some e) := by
    simp only [startLoopAux, hsb, hstop]
  simp only [serverStart, startServlets, haddr, hloop, hfail, stopDownFrom_full]
  simp [List.range_succ, ← List.range_eq_range', List.append_assoc]

/-- Witness for claim C1: servlets A, B, C where A starts and fails on
stop, B fails to start with boom, C is untouched; Start returns boom,
the rollback stop error is only logged. -/
theorem start_failure_rollback_witness :
    splitHostPort addr8080 = Except.ok (emptyStr, portStr)
    ∧ (∀ x ∈ wPre, x.startErr = none)
    ∧ wFail.startErr = some boomMsg
    ∧ serverStart addr8080 (wPre ++ wFail :: wPost) =
        ⟨(List.range (wPre.length + 1)).map Ev.start
           ++ (List.range wPre.length).reverse.map Ev.stop,
         wPre.reverse.filterMap ServletBeh.stopErr,
         some (StartErr.servlet boomMsg), false⟩ :=
  ⟨rfl, by decide, rfl,
   start_failure_rollback addr8080 (emptyStr, portStr) wPre wPost wFail boomMsg
     rfl (by decide) rfl⟩

/-- Claim C5: Mount panics on the empty pattern and registers nothing;
Mount at the root pattern registers the sub-router directly with no
rewriting; any other pattern is normalized by stripping one trailing
separator and registered under the wildcard pattern behind a
StripPrefix handler; and the StripPrefix handler forwards a prefixed
request path to the sub-router with the prefix removed. -/
theorem mount_behavior :
    goMount emptyPat = MountAction.panicInvalid
    ∧ goMount rootPat = MountAction.registered rootPat MountHandler.direct
    ∧ (∀ pat : String, pat ≠ emptyPat → pat ≠ rootPat →
        goMount pat = MountAction.registered (normMount pat ++ wildcardSuffix)
          (MountHandler.stripped (normMount pat)))
    ∧ (∀ (p : ReqPath) (sub : ReqPath → Option String) (rest : ReqPath),
        p ≠ [] → stripPrefixFn p sub (p ++ rest) = sub rest) := by
  refine ⟨rfl, rfl, ?_, ?_⟩
  · intro pat h1 h2
    simp [goMount, h1, h2]
  · intro p sub rest hp
    have hpre : p.isPrefixOf (p ++ rest) = true := by
      simp [List.isPrefixOf_iff_prefix]
    have hlen : rest.length < (p ++ rest).length := by
      have := List.length_pos.mpr hp
      simp only [List.length_append]
      omega
    simp [stripPrefixFn, hpre, List.drop_left, hlen, hp]

/-- Witness for claim C5: mounting at a pattern with a trailing
separator registers the normalized wildcard pattern, and the strip
handler forwards with the prefix removed. -/
theorem mount_behavior_witness :
    apiSlashPat ≠ emptyPat
    ∧ apiSlashPat ≠ rootPat
    ∧ goMount apiSlashPat =
        MountAction.registered (normMount apiSlashPat ++ wildcardSuffix)
          (MountHandler.stripped (normMount apiSlashPat))
    ∧ apiPat.toList ≠ []
    ∧ stripPrefixFn apiPat.toList subEcho (apiPat.toList ++ slashX) = subEcho slashX :=
  ⟨by decide, by decide,
   mount_behavior.2.2.1 apiSlashPat (by decide) (by decide),
   by decide,
   mount_behavior.2.2.2 apiPat.toList subEcho slashX (by decide)⟩

lemma respWrites_committed (bs : List Nat) (r : RespSt) (h : r.committed = true) :
    respWrites r bs = ({ r with size := r.size + bs.sum }, bs.map SinkEv.body, []) := by
  induction bs generalizing r with
  | nil => cases r; simp [respWrites]
  | cons b bs ih =>
    have hw : respWrite r b = ({ r with size := r.size + b }, [SinkEv.body b], []) := by
      simp [respWrite, h]
    have hc : ({ r with size := r.size + b } : RespSt).committed = true := h
    cases r
    simp [respWrites, hw, ih _ hc, Nat.add_assoc]

/-- Claim C6: a fresh response receiving N body writes with sink
reported counts b1 .. bN and no explicit header write ends with status
200, committed true, size exactly the sum of the reported counts, and
the sink saw a status 200 header write first and then exactly the body
writes; nothing is logged. -/
theorem response_implicit_commit (bs : List Nat) (hne : bs ≠ []) :
    (respWrites newResponse bs).1.status = 200
    ∧ (respWrites newResponse bs).1.committed = true
    ∧ (respWrites newResponse bs).1.size = bs.sum
    ∧ (respWrites newResponse bs).2.1 = SinkEv.header 200 :: bs.map SinkEv.body
    ∧ (respWrites newResponse bs).2.2 = [] := by
  match bs, hne with
  | b :: bs, _ =>
    have hw : respWrite newResponse b =
        (⟨200, b, true⟩, [SinkEv.header 200, SinkEv.body b], []) := by
      simp [respWrite, newResponse, respWriteHeader]
    have hrest := respWrites_committed bs ⟨200, b, true⟩ rfl
    simp [respWrites, hw, hrest]

/-- Witness for claim C6 at three writes including a zero byte write. -/
theorem response_implicit_commit_witness :
    wBytes ≠ []
    ∧ (respWrites newResponse wBytes).1.status = 200
    ∧ (respWrites newResponse wBytes).1.committed = true
    ∧ (respWrites newResponse wBytes).1.size = wBytes.sum
    ∧ (respWrites newResponse wBytes).2.1 = SinkEv.header 200 :: wBytes.map SinkEv.body
    ∧ (respWrites newResponse wBytes).2.2 = [] :=
  ⟨by decide, response_implicit_commit wBytes (by decide)⟩

/-- Claim C7: on an already committed response every further
WriteHeader call, whatever the code, leaves status, size and the commit
flag unchanged, forwards nothing to the sink, and only logs one message
per attempt. -/
theorem writeheader_after_commit_noop (r : RespSt) (cs : List Nat)
    (h : r.committed = true) :
    respWriteHeaderSeq r cs = (r, [], cs.map (fun _ => headerAfterCommitMsg)) := by
  induction cs generalizing r with
  | nil => rfl
  | cons c cs ih =>
    have hw : respWriteHeader r c = (r, [], [headerAfterCommitMsg]) := by
      simp [respWriteHeader, h]
    simp [respWriteHeaderSeq, hw, ih r h]

/-- Witness for claim C7 on a committed 201 response and two further
WriteHeader attempts. -/
theorem writeheader_after_commit_noop_witness :
    wCommitted.committed = true
    ∧ respWriteHeaderSeq wCommitted wCodes =
        (wCommitted, [], wCodes.map (fun _ => headerAfterCommitMsg)) :=
  ⟨rfl, writeheader_after_commit_noop wCommitted wCodes rfl⟩

/-- Claim C8: on a sink without flush support, Flush panics (hard
failure aborting the handling goroutine); on a sink without hijack or
push support, Hijack and Push return error values without aborting. -/
theorem capability_failure_asymmetry (c : SinkCaps) :
    (c.canFlush = false → respFlush c = FlushOutcome.panicked flushPanicMsg)
    ∧ (c.canHijack = false → respHijack c = Except.error errNotSupportedMsg)
    ∧ (c.canPush = false → respPush c = Except.error pushErrMsg) := by
  refine ⟨?_, ?_, ?_⟩ <;> intro h <;>
    simp [respFlush, respHijack, respPush, controllerFlush, h]

/-- Witness for claim C8 on a sink with no optional capabilities. -/
theorem capability_failure_asymmetry_witness :
    wNoCaps.canFlush = false
    ∧ respFlush wNoCaps = FlushOutcome.panicked flushPanicMsg
    ∧ wNoCaps.canHijack = false
    ∧ respHijack wNoCaps = Except.error errNotSupportedMsg
    ∧ wNoCaps.canPush = false
    ∧ respPush wNoCaps = Except.error pushErrMsg :=
  ⟨rfl, (capability_failure_asymmetry wNoCaps).1 rfl,
   rfl, (capability_failure_asymmetry wNoCaps).2.1 rfl,
   rfl, (capability_failure_asymmetry wNoCaps).2.2 rfl⟩

end H3
